import Mathlib

/-!
Verification of the concurrent swarm executor of `swarms-rs`.

The development shallowly embeds `concurrent_swarm` (src/main.rs), the
OpenAI callable `call_openai_api` (src/main.rs, src/models/openai.rs) and
the file helpers (src/file_utils.rs).

The executor is embedded as a small-step transition system.  A run of
`concurrent_swarm` spawns `n` tokio tasks; each task performs, in program
order, the atomic actions
  compute  (await of `callable(client)`),
  write    (lock the sink and `writeln!` the log entry; on failure the
            `unwrap` panics the task, which drops its channel sender),
  send     (`tx.send(result).await`, appending to the channel buffer),
  finish   (end of the task future, dropping its channel sender),
while the executor concurrently performs
  recv     (`rx.recv()`, popping the front of the buffer into `results`).
The drain loop of the executor ends (and the run returns) exactly when the
channel is closed: the buffer is empty and every sender clone has been
dropped (tokio mpsc semantics).  A schedule is an arbitrary interleaving of
these atomic actions; theorems quantify over all schedules.
-/

namespace Swarm

/-- Program position of one spawned task, in the order the task body of
`concurrent_swarm` executes: it starts `ready`, holds its outcome after the
await (`computed`), has written its log line (`logged`), has sent its
outcome into the channel (`sent`) and has finished, dropping its sender
(`done`); a failed sink write panics the task (`panicked`). -/
inductive Phase
| ready
| computed
| logged
| sent
| done
| panicked
deriving DecidableEq, Repr

/-- Payload of one log line: the serialized response on success, the
`format!("{:?}", e)` rendering of the error otherwise. -/
inductive LogPayload (T : Type)
| response : T → LogPayload T
| errorText : String → LogPayload T
deriving DecidableEq, Repr

/-- One JSON log line, as built by the `json!` calls of `concurrent_swarm`:
a 1-based `task` index, a `status` string and the payload field. -/
structure LogEntry (T : Type) where
  task : Nat
  status : String
  payload : LogPayload T
deriving DecidableEq, Repr

/-- The log entry task `i` builds from its outcome (src/main.rs lines
62-73): `task` is `i + 1`, `status` is `"success"` or `"error"`. -/
def logEntry {T E : Type} (fmtE : E → String) (i : Nat) (r : Except E T) :
    LogEntry T :=
  match r with
  | .ok response => ⟨i + 1, "success", .response response⟩
  | .error e => ⟨i + 1, "error", .errorText (fmtE e)⟩

/-- Parameters of one run: the width `n`, the outcome the callable produces
for task `i` (the callable is total: every invocation completes with some
`Result`), whether the sink write of task `i` succeeds, and the
`format!("{:?}", _)` rendering used for errors. -/
structure SwarmConfig (T E : Type) where
  n : Nat
  outcomes : Nat → Except E T
  writeOk : Nat → Bool
  fmtE : E → String

/-- Global state of a run: the phase of every task, whether the channel
sender clone of each task is still alive, the lines written to the sink (in
write order), the channel buffer (FIFO) and the results collected by the
drain loop, both tagged with the producing task index. -/
structure SwarmState (T E : Type) where
  tasks : Nat → Phase
  txAlive : Nat → Bool
  sink : List (LogEntry T)
  buffer : List (Nat × Except E T)
  results : List (Nat × Except E T)

/-- State right after the spawn loop and `drop(tx)`: every task `ready`,
every spawned task holding a live sender clone, empty (truncated) sink,
empty buffer, no results. -/
def initState {T E : Type} (cfg : SwarmConfig T E) : SwarmState T E :=
  { tasks := fun _ => .ready
    txAlive := fun i => decide (i < cfg.n)
    sink := []
    buffer := []
    results := [] }

/-- One atomic action of the interleaved execution. -/
inductive Event
| compute (i : Nat)
| write (i : Nat)
| send (i : Nat)
| finish (i : Nat)
| recv
deriving DecidableEq, Repr

/-- Apply one atomic action; an action that is not enabled in the current
state is a no-op. -/
def applyEvent {T E : Type} (cfg : SwarmConfig T E) (s : SwarmState T E) :
    Event → SwarmState T E
  | .compute i =>
      if i < cfg.n ∧ s.tasks i = .ready then
        { s with tasks := fun j => if j = i then .computed else s.tasks j }
      else s
  | .write i =>
      if i < cfg.n ∧ s.tasks i = .computed then
        if cfg.writeOk i then
          { s with
            tasks := fun j => if j = i then .logged else s.tasks j
            sink := s.sink ++ [logEntry cfg.fmtE i (cfg.outcomes i)] }
        else
          { s with
            tasks := fun j => if j = i then .panicked else s.tasks j
            txAlive := fun j => if j = i then false else s.txAlive j }
      else s
  | .send i =>
      if i < cfg.n ∧ s.tasks i = .logged then
        { s with
          tasks := fun j => if j = i then .sent else s.tasks j
          buffer := s.buffer ++ [(i, cfg.outcomes i)] }
      else s
  | .finish i =>
      if i < cfg.n ∧ s.tasks i = .sent then
        { s with
          tasks := fun j => if j = i then .done else s.tasks j
          txAlive := fun j => if j = i then false else s.txAlive j }
      else s
  | .recv =>
      match s.buffer with
      | [] => s
      | p :: rest => { s with buffer := rest, results := s.results ++ [p] }

/-- Run a whole schedule of atomic actions from a state. -/
def exec {T E : Type} (cfg : SwarmConfig T E) (sched : List Event)
    (s : SwarmState T E) : SwarmState T E :=
  sched.foldl (applyEvent cfg) s

/-- The condition under which `rx.recv()` returns `None` and the drain loop
of `concurrent_swarm` ends, so the call returns: the buffer is empty and
every sender clone has been dropped (tokio mpsc close semantics). -/
def isTerminal {T E : Type} (cfg : SwarmConfig T E) (s : SwarmState T E) :
    Prop :=
  s.buffer = [] ∧ ∀ i, i < cfg.n → s.txAlive i = false

/-- The executor-level abort of `concurrent_swarm`: the only panic that
unwinds in the context of the caller is the `unwrap` on `File::create`. -/
inductive SwarmPanic
| sinkOpenFailed
deriving DecidableEq, Repr

/-- The whole call: `File::create(output_file).unwrap()` first (src/main.rs
line 51) — a failure there panics in the context of the caller before any task
is spawned — then the interleaved execution under a schedule. -/
def concurrent_swarm {T E : Type} (cfg : SwarmConfig T E) (openOk : Bool)
    (sched : List Event) : Except SwarmPanic (SwarmState T E) :=
  if openOk then .ok (exec cfg sched (initState cfg)) else .error .sinkOpenFailed

/-- Sink lines carrying task index `i` (1-based field `i + 1`). -/
def sinkFor {T E : Type} (s : SwarmState T E) (i : Nat) : List (LogEntry T) :=
  s.sink.filter (fun e => e.task == i + 1)

/-- Occurrences of the outcome of task `i` still buffered or collected. -/
def outFor {T E : Type} (s : SwarmState T E) (i : Nat) :
    List (Nat × Except E T) :=
  (s.buffer ++ s.results).filter (fun p => p.1 == i)

/-- What the sink, the channel, the sender flag and the write-success flag
of task `i` look like at each program position of the task. -/
def phaseInv {T E : Type} (cfg : SwarmConfig T E) (s : SwarmState T E)
    (i : Nat) : Phase → Prop
  | .ready => sinkFor s i = [] ∧ outFor s i = [] ∧ s.txAlive i = true
  | .computed => sinkFor s i = [] ∧ outFor s i = [] ∧ s.txAlive i = true
  | .logged =>
      sinkFor s i = [logEntry cfg.fmtE i (cfg.outcomes i)] ∧ outFor s i = [] ∧
        s.txAlive i = true ∧ cfg.writeOk i = true
  | .sent =>
      sinkFor s i = [logEntry cfg.fmtE i (cfg.outcomes i)] ∧
        outFor s i = [(i, cfg.outcomes i)] ∧ s.txAlive i = true ∧
        cfg.writeOk i = true
  | .done =>
      sinkFor s i = [logEntry cfg.fmtE i (cfg.outcomes i)] ∧
        outFor s i = [(i, cfg.outcomes i)] ∧ s.txAlive i = false ∧
        cfg.writeOk i = true
  | .panicked =>
      sinkFor s i = [] ∧ outFor s i = [] ∧ s.txAlive i = false ∧
        cfg.writeOk i = false

/-- Per-task invariant tying the program position of task `i` to the sink
lines, channel occurrences, sender liveness and write-success flag of `i`. -/
def TaskInv {T E : Type} (cfg : SwarmConfig T E) (s : SwarmState T E)
    (i : Nat) : Prop :=
  phaseInv cfg s i (s.tasks i)

/-- Global invariant of reachable states: every spawned task satisfies its
per-task invariant, every sink line belongs to a spawned task, every
channel or result entry belongs to a spawned task. -/
def Inv {T E : Type} (cfg : SwarmConfig T E) (s : SwarmState T E) : Prop :=
  (∀ i, i < cfg.n → TaskInv cfg s i) ∧
  (∀ e ∈ s.sink, ∃ i, i < cfg.n ∧ e.task = i + 1) ∧
  (∀ p ∈ s.buffer ++ s.results, p.1 < cfg.n)

/-- Indices of the tasks whose sink write succeeds. -/
def goodTasks {T E : Type} (cfg : SwarmConfig T E) : List Nat :=
  (List.range cfg.n).filter cfg.writeOk

/-- Concrete two-task run used to exercise the theorems: task 0 succeeds
with payload 10, task 1 fails operationally; both sink writes succeed. -/
def demoConfig : SwarmConfig Nat Unit :=
  { n := 2
    outcomes := fun i => if i = 0 then Except.ok 10 else Except.error ()
    writeOk := fun _ => true
    fmtE := fun _ => "unit error" }

/-- One full interleaving of `demoConfig`: each task runs to completion,
then the drain loop receives both outcomes. -/
def demoSched : List Event :=
  [Event.compute 0, Event.write 0, Event.send 0, Event.finish 0,
   Event.compute 1, Event.write 1, Event.send 1, Event.finish 1,
   Event.recv, Event.recv]

/-- Partial interleaving of `demoConfig`: task 0 has logged and sent, but
nothing has been received yet. -/
def demoSchedPartial : List Event :=
  [Event.compute 0, Event.write 0, Event.send 0]

/-- Width-1 run whose only sink write fails. -/
def failConfig1 : SwarmConfig Nat Unit :=
  { n := 1
    outcomes := fun _ => Except.ok 7
    writeOk := fun _ => false
    fmtE := fun _ => "unit error" }

/-- Interleaving of `failConfig1`: the task computes and then panics on its
failed write, dropping its sender; nothing is ever buffered. -/
def failSched1 : List Event := [Event.compute 0, Event.write 0]

/-- Width-0 run. -/
def zeroConfig : SwarmConfig Nat Unit :=
  { n := 0
    outcomes := fun _ => Except.ok 0
    writeOk := fun _ => true
    fmtE := fun _ => "unit error" }

end Swarm

namespace OpenAIModel

/-- Abstract `reqwest::Error`: the failure of the send or of the body read
of the HTTP call. -/
inductive ReqwestError
| sendFailed : String → ReqwestError
| textFailed : String → ReqwestError
deriving DecidableEq, Repr

/-- The HTTP request `call_openai_api` builds: fixed URL, two headers and
the formatted JSON body. -/
structure HttpRequest where
  url : String
  contentType : String
  authorization : String
  body : String
deriving DecidableEq, Repr

/-- The `format!` template of `call_openai_api` (src/main.rs lines
121-130). -/
def request_body (model system_prompt user_task : String) : String :=
  "\x7b\n            \"model\": \"" ++ model ++
    "\",\n            \"messages\": [\n                \x7b\"role\": \"system\", \"content\": \""
    ++ system_prompt ++
    "\"\x7d,\n                \x7b\"role\": \"user\", \"content\": \"" ++
    user_task ++ "\"\x7d\n            ]\n        \x7d"

/-- Embedding of `call_openai_api` (src/main.rs lines 112-142, identical
body in src/models/openai.rs lines 47-77).  The environment lookup and the
`expect` are explicit: when `OPENAI_API_KEY` is absent the outer
`Except.error` is the task panic carrying the `expect` message.  The `send`
parameter models the `client.post(url)...send().await?` and
`response.text().await?` chain, either of which can fail with a
`ReqwestError`; its result in the `Except.ok` branch is the value the
function returns to the executor. -/
def call_openai_api (env_OPENAI_API_KEY : Option String)
    (send : HttpRequest → Except ReqwestError String)
    (model system_prompt user_task : String) :
    Except String (Except ReqwestError String) :=
  let url := "https://api.openai.com/v1/chat/completions"
  match env_OPENAI_API_KEY with
  | none => Except.error "API key not found in environment variables"
  | some api_key =>
      Except.ok (send
        { url := url
          contentType := "application/json"
          authorization := "Bearer " ++ api_key
          body := request_body model system_prompt user_task })

end OpenAIModel

namespace FileUtils

/-- Oracle fixing which filesystem primitives succeed: `create_dir_all` on
a folder path and `File::create` plus `write_all` on a file path. -/
structure FsOracle where
  createDirOk : String → Bool
  createFileOk : String → Bool

/-- Observable filesystem state: existing folders and the log of written
files (path and content). -/
structure FsState where
  folders : List String
  files : List (String × String)
deriving DecidableEq, Repr

/-- Embedding of `create_folder` (src/file_utils.rs lines 20-29): a no-op
when the path exists, otherwise `create_dir_all`, which can fail with an
I/O error. -/
def create_folder (ora : FsOracle) (fs : FsState) (folder_name : String) :
    Except String FsState :=
  if folder_name ∈ fs.folders then Except.ok fs
  else if ora.createDirOk folder_name then
    Except.ok { fs with folders := fs.folders ++ [folder_name] }
  else Except.error ("could not create folder " ++ folder_name)

/-- Embedding of `create_file` (src/file_utils.rs lines 44-61): ensure the
folder, then create the file and write the content, each step able to fail
with an I/O error that the function propagates. -/
def create_file (ora : FsOracle) (fs : FsState)
    (folder_name file_name content : String) : Except String FsState :=
  match create_folder ora fs folder_name with
  | Except.error e => Except.error e
  | Except.ok fs1 =>
      let path := folder_name ++ "/" ++ file_name
      if ora.createFileOk path then
        Except.ok { fs1 with files := fs1.files ++ [(path, content)] }
      else Except.error ("could not create file " ++ path)

/-- Embedding of `create_multiple_files` (src/file_utils.rs lines 75-96):
one spawned task per file; a failing `create_file` is only logged by its
task (the `error!` arm) and never propagated; each join succeeds because
the task bodies never panic; the function then returns `Ok`.  The tasks
run concurrently — the fold fixes one interleaving of their filesystem
effects, which does not affect the returned constructor.  The resulting
filesystem rides in the `Except.ok` payload for observability; the Rust
function returns `Ok(())`. -/
def create_multiple_files (ora : FsOracle) (fs : FsState)
    (folder_name : String) (files : List (String × String)) :
    Except String FsState :=
  Except.ok (files.foldl
    (fun acc fc =>
      match create_file ora acc folder_name fc.1 fc.2 with
      | Except.ok fs1 => fs1
      | Except.error _ => acc) fs)

end FileUtils

namespace Swarm

theorem inv_init {T E : Type} (cfg : SwarmConfig T E) :
    Inv cfg (initState cfg) := by
  refine ⟨fun i hi => ?_, by simp [initState], by simp [initState]⟩
  simp [TaskInv, phaseInv, initState, sinkFor, outFor, hi]

theorem logEntry_task {T E : Type} (fmtE : E → String) (i : Nat)
    (r : Except E T) : (logEntry fmtE i r).task = i + 1 := by
  cases r <;> rfl

theorem taskInv_of_perm {T E : Type} {cfg : SwarmConfig T E}
    {s s' : SwarmState T E} (i : Nat)
    (ht : s'.tasks i = s.tasks i) (hsk : sinkFor s' i = sinkFor s i)
    (ho : List.Perm (outFor s' i) (outFor s i))
    (hx : s'.txAlive i = s.txAlive i)
    (h : TaskInv cfg s i) : TaskInv cfg s' i := by
  unfold TaskInv at h ⊢
  rw [ht]
  cases hp : s.tasks i <;> rw [hp] at h <;>
    first
    | exact ⟨hsk.trans h.1, List.perm_nil.mp (h.2.1 ▸ ho), hx.trans h.2.2⟩
    | exact ⟨hsk.trans h.1, List.perm_nil.mp (h.2.1 ▸ ho), hx.trans h.2.2.1,
        h.2.2.2⟩
    | exact ⟨hsk.trans h.1, List.perm_singleton.mp (h.2.1 ▸ ho),
        hx.trans h.2.2.1, h.2.2.2⟩

theorem inv_applyEvent {T E : Type} (cfg : SwarmConfig T E)
    (s : SwarmState T E) (ev : Event) (h : Inv cfg s) :
    Inv cfg (applyEvent cfg s ev) := by
  obtain ⟨hT, hS, hO⟩ := h
  cases ev with
  | compute i =>
    simp only [applyEvent]
    by_cases hc : i < cfg.n ∧ s.tasks i = .ready
    · rw [if_pos hc]
      refine ⟨fun j hj => ?_, hS, hO⟩
      by_cases hij : j = i
      · subst hij
        have hold := hT j hj
        unfold TaskInv at hold
        rw [hc.2] at hold
        unfold TaskInv
        show phaseInv cfg _ j (if j = j then Phase.computed else s.tasks j)
        rw [if_pos rfl]
        exact hold
      · exact taskInv_of_perm j (if_neg hij) rfl (List.Perm.refl _) rfl
          (hT j hj)
    · rw [if_neg hc]; exact ⟨hT, hS, hO⟩
  | write i =>
    simp only [applyEvent]
    by_cases hc : i < cfg.n ∧ s.tasks i = .computed
    · rw [if_pos hc]
      by_cases hw : cfg.writeOk i
      · rw [if_pos hw]
        refine ⟨fun j hj => ?_, ?_, hO⟩
        · have hold := hT j hj
          unfold TaskInv at hold
          by_cases hij : j = i
          · subst hij
            rw [hc.2] at hold
            unfold TaskInv
            show phaseInv cfg _ j (if j = j then Phase.logged else s.tasks j)
            rw [if_pos rfl]
            refine ⟨?_, hold.2.1, hold.2.2, hw⟩
            have h1 : List.filter (fun e => e.task == j + 1) s.sink = [] :=
              hold.1
            show List.filter (fun e => e.task == j + 1)
              (s.sink ++ [logEntry cfg.fmtE j (cfg.outcomes j)]) = _
            rw [List.filter_append, h1]
            simp [logEntry_task]
          · refine taskInv_of_perm j (if_neg hij) ?_ (List.Perm.refl _) rfl
              (hT j hj)
            have hne : ((logEntry cfg.fmtE i (cfg.outcomes i)).task == j + 1)
                = false := by
              rw [logEntry_task]
              simp
              omega
            show List.filter (fun e => e.task == j + 1)
              (s.sink ++ [logEntry cfg.fmtE i (cfg.outcomes i)]) = sinkFor s j
            rw [List.filter_append]
            simp [hne, sinkFor]
        · intro e he
          rcases List.mem_append.mp he with h1 | h1
          · exact hS e h1
          · rw [List.mem_singleton] at h1
            subst h1
            exact ⟨i, hc.1, logEntry_task _ _ _⟩
      · rw [if_neg hw]
        refine ⟨fun j hj => ?_, hS, hO⟩
        have hold := hT j hj
        unfold TaskInv at hold
        by_cases hij : j = i
        · subst hij
          rw [hc.2] at hold
          unfold TaskInv
          show phaseInv cfg _ j (if j = j then Phase.panicked else s.tasks j)
          rw [if_pos rfl]
          refine ⟨hold.1, hold.2.1, if_pos rfl, ?_⟩
          cases hwv : cfg.writeOk j
          · rfl
          · exact absurd hwv hw
        · exact taskInv_of_perm j (if_neg hij) rfl (List.Perm.refl _)
            (if_neg hij) (hT j hj)
    · rw [if_neg hc]; exact ⟨hT, hS, hO⟩
  | send i =>
    simp only [applyEvent]
    by_cases hc : i < cfg.n ∧ s.tasks i = .logged
    · rw [if_pos hc]
      refine ⟨fun j hj => ?_, hS, ?_⟩
      · have hold := hT j hj
        unfold TaskInv at hold
        by_cases hij : j = i
        · subst hij
          rw [hc.2] at hold
          unfold TaskInv
          show phaseInv cfg _ j (if j = j then Phase.sent else s.tasks j)
          rw [if_pos rfl]
          refine ⟨hold.1, ?_, hold.2.2.1, hold.2.2.2⟩
          have h2 : List.filter (fun p => p.1 == j) (s.buffer ++ s.results)
              = [] := hold.2.1
          rw [List.filter_append] at h2
          obtain ⟨hbn, hrn⟩ := List.append_eq_nil.mp h2
          show List.filter (fun p => p.1 == j)
            ((s.buffer ++ [(j, cfg.outcomes j)]) ++ s.results)
            = [(j, cfg.outcomes j)]
          rw [List.filter_append, List.filter_append, hbn, hrn]
          simp
        · refine taskInv_of_perm j (if_neg hij) rfl ?_ rfl (hT j hj)
          have hne : (((i, cfg.outcomes i) : Nat × Except E T).1 == j)
              = false := by
            simp
            omega
          have hout : outFor s j = List.filter (fun p => p.1 == j) s.buffer
              ++ List.filter (fun p => p.1 == j) s.results := by
            show List.filter _ (s.buffer ++ s.results) = _
            rw [List.filter_append]
          show (List.filter (fun p => p.1 == j)
            ((s.buffer ++ [(i, cfg.outcomes i)]) ++ s.results)).Perm
            (outFor s j)
          rw [List.filter_append, List.filter_append, hout]
          simp [hne]
      · intro p hp
        rcases List.mem_append.mp hp with h1 | h1
        · rcases List.mem_append.mp h1 with h2 | h2
          · exact hO p (List.mem_append.mpr (.inl h2))
          · rw [List.mem_singleton] at h2
            subst h2
            exact hc.1
        · exact hO p (List.mem_append.mpr (.inr h1))
    · rw [if_neg hc]; exact ⟨hT, hS, hO⟩
  | finish i =>
    simp only [applyEvent]
    by_cases hc : i < cfg.n ∧ s.tasks i = .sent
    · rw [if_pos hc]
      refine ⟨fun j hj => ?_, hS, hO⟩
      have hold := hT j hj
      unfold TaskInv at hold
      by_cases hij : j = i
      · subst hij
        rw [hc.2] at hold
        unfold TaskInv
        show phaseInv cfg _ j (if j = j then Phase.done else s.tasks j)
        rw [if_pos rfl]
        exact ⟨hold.1, hold.2.1, if_pos rfl, hold.2.2.2⟩
      · exact taskInv_of_perm j (if_neg hij) rfl (List.Perm.refl _)
          (if_neg hij) (hT j hj)
    · rw [if_neg hc]; exact ⟨hT, hS, hO⟩
  | recv =>
    simp only [applyEvent]
    cases hb : s.buffer with
    | nil => exact ⟨hT, hS, hO⟩
    | cons p rest =>
      have hperm : (rest ++ (s.results ++ [p])).Perm (s.buffer ++ s.results)
          := by
        rw [hb, ← List.append_assoc]
        exact List.perm_append_singleton _ _
      refine ⟨fun j hj => ?_, hS, ?_⟩
      · refine taskInv_of_perm j ?_ ?_ ?_ ?_ (hT j hj)
        · rfl
        · rfl
        · exact hperm.filter _
        · rfl
      · intro q hq
        exact hO q (hperm.mem_iff.mp hq)

theorem inv_exec {T E : Type} (cfg : SwarmConfig T E) (sched : List Event)
    (s : SwarmState T E) (h : Inv cfg s) : Inv cfg (exec cfg sched s) := by
  induction sched generalizing s with
  | nil => exact h
  | cons ev tl ih => exact ih _ (inv_applyEvent cfg s ev h)

theorem inv_reach {T E : Type} (cfg : SwarmConfig T E) (sched : List Event) :
    Inv cfg (exec cfg sched (initState cfg)) :=
  inv_exec cfg sched _ (inv_init cfg)

theorem terminal_phases {T E : Type} {cfg : SwarmConfig T E}
    {s : SwarmState T E} (hInv : Inv cfg s) (hterm : isTerminal cfg s)
    (i : Nat) (hi : i < cfg.n) :
    s.tasks i = .done ∨ s.tasks i = .panicked := by
  have hx := hterm.2 i hi
  have hti := hInv.1 i hi
  unfold TaskInv at hti
  cases hp : s.tasks i with
  | ready =>
      rw [hp] at hti
      have h2 := hti.2.2
      rw [hx] at h2
      exact absurd h2 Bool.false_ne_true
  | computed =>
      rw [hp] at hti
      have h2 := hti.2.2
      rw [hx] at h2
      exact absurd h2 Bool.false_ne_true
  | logged =>
      rw [hp] at hti
      have h2 := hti.2.2.1
      rw [hx] at h2
      exact absurd h2 Bool.false_ne_true
  | sent =>
      rw [hp] at hti
      have h2 := hti.2.2.1
      rw [hx] at h2
      exact absurd h2 Bool.false_ne_true
  | done => exact .inl rfl
  | panicked => exact .inr rfl

theorem terminal_writeOk {T E : Type} {cfg : SwarmConfig T E}
    {s : SwarmState T E} (hInv : Inv cfg s) (hterm : isTerminal cfg s)
    (i : Nat) (hi : i < cfg.n) (hw : cfg.writeOk i = true) :
    sinkFor s i = [logEntry cfg.fmtE i (cfg.outcomes i)] ∧
      outFor s i = [(i, cfg.outcomes i)] := by
  have hti := hInv.1 i hi
  unfold TaskInv at hti
  rcases terminal_phases hInv hterm i hi with hp | hp <;> rw [hp] at hti
  · exact ⟨hti.1, hti.2.1⟩
  · rw [hti.2.2.2] at hw; cases hw

theorem terminal_writeFail {T E : Type} {cfg : SwarmConfig T E}
    {s : SwarmState T E} (hInv : Inv cfg s) (hterm : isTerminal cfg s)
    (i : Nat) (hi : i < cfg.n) (hw : cfg.writeOk i = false) :
    sinkFor s i = [] ∧ outFor s i = [] := by
  have hti := hInv.1 i hi
  unfold TaskInv at hti
  rcases terminal_phases hInv hterm i hi with hp | hp <;> rw [hp] at hti
  · rw [hti.2.2.2] at hw; cases hw
  · exact ⟨hti.1, hti.2.1⟩

theorem mem_sink_eq {T E : Type} {cfg : SwarmConfig T E}
    {s : SwarmState T E} (hInv : Inv cfg s) {e : LogEntry T}
    (he : e ∈ s.sink) :
    ∃ i, i < cfg.n ∧ e.task = i + 1 ∧
      e = logEntry cfg.fmtE i (cfg.outcomes i) := by
  obtain ⟨i, hi, hta⟩ := hInv.2.1 e he
  have hmem : e ∈ sinkFor s i := List.mem_filter.mpr ⟨he, by simp [hta]⟩
  have hti := hInv.1 i hi
  unfold TaskInv at hti
  cases hp : s.tasks i with
  | ready => rw [hp] at hti; rw [hti.1] at hmem; cases hmem
  | computed => rw [hp] at hti; rw [hti.1] at hmem; cases hmem
  | logged =>
      rw [hp] at hti; rw [hti.1] at hmem
      exact ⟨i, hi, hta, List.mem_singleton.mp hmem⟩
  | sent =>
      rw [hp] at hti; rw [hti.1] at hmem
      exact ⟨i, hi, hta, List.mem_singleton.mp hmem⟩
  | done =>
      rw [hp] at hti; rw [hti.1] at hmem
      exact ⟨i, hi, hta, List.mem_singleton.mp hmem⟩
  | panicked => rw [hp] at hti; rw [hti.1] at hmem; cases hmem

theorem mem_out_eq {T E : Type} {cfg : SwarmConfig T E}
    {s : SwarmState T E} (hInv : Inv cfg s) {p : Nat × Except E T}
    (hp : p ∈ s.buffer ++ s.results) :
    p.1 < cfg.n ∧ p = (p.1, cfg.outcomes p.1) ∧
      logEntry cfg.fmtE p.1 (cfg.outcomes p.1) ∈ s.sink := by
  have hi : p.1 < cfg.n := hInv.2.2 p hp
  have hmem : p ∈ outFor s p.1 := List.mem_filter.mpr ⟨hp, by simp⟩
  have hti := hInv.1 p.1 hi
  unfold TaskInv at hti
  cases hps : s.tasks p.1 with
  | ready => rw [hps] at hti; rw [hti.2.1] at hmem; cases hmem
  | computed => rw [hps] at hti; rw [hti.2.1] at hmem; cases hmem
  | logged => rw [hps] at hti; rw [hti.2.1] at hmem; cases hmem
  | sent =>
      rw [hps] at hti
      rw [hti.2.1] at hmem
      refine ⟨hi, List.mem_singleton.mp hmem, ?_⟩
      have : logEntry cfg.fmtE p.1 (cfg.outcomes p.1) ∈ sinkFor s p.1 := by
        rw [hti.1]; exact List.mem_singleton.mpr rfl
      exact List.mem_of_mem_filter this
  | done =>
      rw [hps] at hti
      rw [hti.2.1] at hmem
      refine ⟨hi, List.mem_singleton.mp hmem, ?_⟩
      have : logEntry cfg.fmtE p.1 (cfg.outcomes p.1) ∈ sinkFor s p.1 := by
        rw [hti.1]; exact List.mem_singleton.mpr rfl
      exact List.mem_of_mem_filter this
  | panicked => rw [hps] at hti; rw [hti.2.1] at hmem; cases hmem

theorem count_map_task {T : Type} (l : List (LogEntry T)) (a : Nat) :
    (l.map LogEntry.task).count a
      = (l.filter (fun e => e.task == a)).length := by
  induction l with
  | nil => rfl
  | cons e t ih =>
    by_cases h : e.task = a <;>
      simp [List.count_cons, List.filter_cons, h, ih]

theorem count_map_fst {A : Type} (l : List (Nat × A)) (a : Nat) :
    (l.map Prod.fst).count a = (l.filter (fun p => p.1 == a)).length := by
  induction l with
  | nil => rfl
  | cons e t ih =>
    by_cases h : e.1 = a <;>
      simp [List.count_cons, List.filter_cons, h, ih]

theorem count_map_succ (l : List Nat) (a : Nat) :
    (l.map (fun x => x + 1)).count (a + 1) = l.count a :=
  List.count_map_of_injective l (fun x => x + 1)
    (fun x y h => by simpa using h) a

theorem count_zero_map_succ (l : List Nat) :
    (l.map (fun x => x + 1)).count 0 = 0 :=
  List.count_eq_zero_of_not_mem (by simp)

theorem count_goodTasks {T E : Type} (cfg : SwarmConfig T E) (i : Nat) :
    (goodTasks cfg).count i
      = if i < cfg.n ∧ cfg.writeOk i = true then 1 else 0 := by
  by_cases hi : i < cfg.n ∧ cfg.writeOk i = true
  · rw [if_pos hi]
    rw [goodTasks, List.count_filter hi.2]
    exact List.count_eq_one_of_mem (List.nodup_range cfg.n)
      (List.mem_range.mpr hi.1)
  · rw [if_neg hi]
    apply List.count_eq_zero_of_not_mem
    intro hmem
    rw [goodTasks, List.mem_filter, List.mem_range] at hmem
    exact hi hmem

/-- At a terminal state the multiset of 1-based `task` fields of the sink
lines is exactly the (i + 1)-image of the successful-write task indices. -/
theorem sink_tasks_perm {T E : Type} {cfg : SwarmConfig T E}
    {s : SwarmState T E} (hInv : Inv cfg s) (hterm : isTerminal cfg s) :
    (s.sink.map LogEntry.task).Perm ((goodTasks cfg).map (fun i => i + 1))
    := by
  rw [List.perm_iff_count]
  intro a
  cases a with
  | zero =>
    rw [count_zero_map_succ]
    apply List.count_eq_zero_of_not_mem
    intro hmem
    obtain ⟨e, he, het⟩ := List.mem_map.mp hmem
    obtain ⟨i, hi, hta⟩ := hInv.2.1 e he
    omega
  | succ i =>
    rw [count_map_succ, count_map_task, count_goodTasks]
    by_cases hi : i < cfg.n
    · cases hw : cfg.writeOk i with
      | true =>
        rw [if_pos ⟨hi, rfl⟩]
        have := (terminal_writeOk hInv hterm i hi hw).1
        rw [sinkFor] at this
        rw [this]
        rfl
      | false =>
        rw [if_neg (by simp)]
        have := (terminal_writeFail hInv hterm i hi hw).1
        rw [sinkFor] at this
        rw [this]
        rfl
    · rw [if_neg (by simp [hi])]
      have : s.sink.filter (fun e => e.task == i + 1) = [] := by
        rw [List.filter_eq_nil_iff]
        intro e he
        obtain ⟨j, hj, hta⟩ := hInv.2.1 e he
        simp [hta]
        omega
      rw [this]
      rfl

/-- At a terminal state the multiset of producing-task indices of the
collected results is exactly the successful-write task indices. -/
theorem results_fst_perm {T E : Type} {cfg : SwarmConfig T E}
    {s : SwarmState T E} (hInv : Inv cfg s) (hterm : isTerminal cfg s) :
    (s.results.map Prod.fst).Perm (goodTasks cfg) := by
  rw [List.perm_iff_count]
  intro a
  rw [count_map_fst, count_goodTasks]
  have hres : ∀ b : Nat, s.results.filter (fun p => p.1 == b) = outFor s b
      := by
    intro b
    rw [outFor, hterm.1, List.nil_append]
  by_cases hi : a < cfg.n
  · cases hw : cfg.writeOk a with
    | true =>
      rw [if_pos ⟨hi, rfl⟩]
      rw [hres a, (terminal_writeOk hInv hterm a hi hw).2]
      rfl
    | false =>
      rw [if_neg (by simp)]
      rw [hres a, (terminal_writeFail hInv hterm a hi hw).2]
      rfl
  · rw [if_neg (by simp [hi])]
    have : s.results.filter (fun p => p.1 == a) = [] := by
      rw [List.filter_eq_nil_iff]
      intro p hp
      have := hInv.2.2 p (List.mem_append.mpr (.inr hp))
      simp
      omega
    rw [this]
    rfl

/-- When every sink write succeeds, the successful-write indices are all of
`0, ..., n - 1`. -/
theorem goodTasks_all {T E : Type} (cfg : SwarmConfig T E)
    (hw : ∀ i, i < cfg.n → cfg.writeOk i = true) :
    goodTasks cfg = List.range cfg.n := by
  rw [goodTasks, List.filter_eq_self]
  intro a ha
  exact hw a (List.mem_range.mp ha)

theorem exec_zero {T E : Type} (cfg : SwarmConfig T E) (h0 : cfg.n = 0)
    (sched : List Event) :
    exec cfg sched (initState cfg) = initState cfg := by
  induction sched with
  | nil => rfl
  | cons ev tl ih =>
    have hstep : applyEvent cfg (initState cfg) ev = initState cfg := by
      cases ev with
      | compute i => simp [applyEvent, h0]
      | write i => simp [applyEvent, h0]
      | send i => simp [applyEvent, h0]
      | finish i => simp [applyEvent, h0]
      | recv => rfl
    simp only [exec, List.foldl_cons, hstep]
    exact ih

/-- C1: for every width n and every callable all of whose invocations
complete with some Result, when every sink write succeeds and the drain
loop of `run` terminates, the run returns a Result Collection of exactly n
elements and appends exactly n Log Entries to the sink — one outcome and
one entry per launched task, none lost and none duplicated (the producing
indices of the collected outcomes are a permutation of 0..n-1 and each
collected outcome is the one its task produced). -/
theorem C1_run_returns_n_outcomes_and_logs {T E : Type}
    (cfg : SwarmConfig T E) (sched : List Event)
    (hw : ∀ i, i < cfg.n → cfg.writeOk i = true)
    (hterm : isTerminal cfg (exec cfg sched (initState cfg))) :
    (exec cfg sched (initState cfg)).results.length = cfg.n ∧
    (exec cfg sched (initState cfg)).sink.length = cfg.n ∧
    ((exec cfg sched (initState cfg)).results.map Prod.fst).Perm
      (List.range cfg.n) ∧
    ∀ p ∈ (exec cfg sched (initState cfg)).results,
      p.2 = cfg.outcomes p.1 := by
  have hInv := inv_reach cfg sched
  have hr := results_fst_perm hInv hterm
  have hs := sink_tasks_perm hInv hterm
  rw [goodTasks_all cfg hw] at hr hs
  refine ⟨?_, ?_, hr, ?_⟩
  · have := hr.length_eq
    simpa using this
  · have := hs.length_eq
    simpa using this
  · intro p hp
    have hmem : p ∈ (exec cfg sched (initState cfg)).buffer ++
        (exec cfg sched (initState cfg)).results :=
      List.mem_append.mpr (Or.inr hp)
    exact congrArg Prod.snd (mem_out_eq hInv hmem).2.1

/-- C1 witness: the two-task demo run collects 2 outcomes and logs 2
lines. -/
theorem C1_run_returns_n_outcomes_and_logs_witness :
    (exec demoConfig demoSched (initState demoConfig)).results.length = 2 ∧
    (exec demoConfig demoSched (initState demoConfig)).sink.length = 2 :=
  ⟨(C1_run_returns_n_outcomes_and_logs demoConfig demoSched (by decide)
      ⟨rfl, by decide⟩).1,
   (C1_run_returns_n_outcomes_and_logs demoConfig demoSched (by decide)
      ⟨rfl, by decide⟩).2.1⟩

/-- C2: with n = 0 the run is a legal no-op: it returns Ok with the
freshly truncated state untouched — empty Result Collection, no task
launched, no log entry written — and the drain loop terminates at once. -/
theorem C2_zero_width_noop {T E : Type} (cfg : SwarmConfig T E)
    (sched : List Event) (h0 : cfg.n = 0) :
    concurrent_swarm cfg true sched = Except.ok (initState cfg) ∧
    (initState cfg).results = [] ∧
    (initState cfg).sink = [] ∧
    isTerminal cfg (initState cfg) := by
  refine ⟨?_, rfl, rfl, rfl, fun i hi => absurd hi (by omega)⟩
  have h1 : concurrent_swarm cfg true sched
      = Except.ok (exec cfg sched (initState cfg)) := rfl
  rw [h1, exec_zero cfg h0 sched]

/-- C2 witness at the width-0 configuration. -/
theorem C2_zero_width_noop_witness :
    concurrent_swarm zeroConfig true [Event.recv]
      = Except.ok (initState zeroConfig) ∧
    (initState zeroConfig).results = [] ∧
    (initState zeroConfig).sink = [] :=
  ⟨(C2_zero_width_noop zeroConfig [Event.recv] rfl).1,
   (C2_zero_width_noop zeroConfig [Event.recv] rfl).2.1,
   (C2_zero_width_noop zeroConfig [Event.recv] rfl).2.2.1⟩

/-- C3 counterexample: at width 1 with the sink write failing, the run
does not abort and does not propagate an executor-level error: the failed
write panics only the task (unwrap inside the spawned future), the channel
closes with nothing buffered, and the call returns Ok with an empty —
hence partial — Result Collection although n = 1. -/
theorem C3_counterexample :
    failConfig1.n = 1 ∧
    failConfig1.writeOk 0 = false ∧
    (concurrent_swarm failConfig1 true failSched1).isOk = true ∧
    isTerminal failConfig1
      (exec failConfig1 failSched1 (initState failConfig1)) ∧
    (exec failConfig1 failSched1 (initState failConfig1)).results.length
      = 0 :=
  ⟨rfl, rfl, rfl, ⟨rfl, by decide⟩, rfl⟩

/-- C3 amended: a failed sink write panics only the task that issued it;
the run itself completes normally (Ok, no executor-level error) and
returns a partial Result Collection and sink holding exactly one outcome
and one line for each task whose write succeeded. -/
theorem C3_amended_write_failure_partial {T E : Type}
    (cfg : SwarmConfig T E) (sched : List Event)
    (hterm : isTerminal cfg (exec cfg sched (initState cfg))) :
    concurrent_swarm cfg true sched
      = Except.ok (exec cfg sched (initState cfg)) ∧
    ((exec cfg sched (initState cfg)).results.map Prod.fst).Perm
      ((List.range cfg.n).filter cfg.writeOk) ∧
    ((exec cfg sched (initState cfg)).sink.map LogEntry.task).Perm
      (((List.range cfg.n).filter cfg.writeOk).map (fun i => i + 1)) :=
  ⟨rfl, results_fst_perm (inv_reach cfg sched) hterm,
   sink_tasks_perm (inv_reach cfg sched) hterm⟩

/-- C3 amended witness at the width-1 failing-write run. -/
theorem C3_amended_write_failure_partial_witness :
    concurrent_swarm failConfig1 true failSched1
      = Except.ok (exec failConfig1 failSched1 (initState failConfig1)) ∧
    ((exec failConfig1 failSched1 (initState failConfig1)).results.map
      Prod.fst).Perm ((List.range failConfig1.n).filter failConfig1.writeOk) ∧
    ((exec failConfig1 failSched1 (initState failConfig1)).sink.map
      LogEntry.task).Perm
      (((List.range failConfig1.n).filter failConfig1.writeOk).map
        (fun i => i + 1)) :=
  C3_amended_write_failure_partial failConfig1 failSched1 ⟨rfl, by decide⟩

/-- C4: when the drain loop ends (the channel reports closed: buffer empty
and every sender clone dropped) every spawned task has already completed —
run to the end of its future or panicked — so no spawned task outlives the
run call. -/
theorem C4_no_task_outlives_run {T E : Type} (cfg : SwarmConfig T E)
    (sched : List Event)
    (hterm : isTerminal cfg (exec cfg sched (initState cfg))) :
    ∀ i, i < cfg.n →
      (exec cfg sched (initState cfg)).tasks i = Phase.done ∨
      (exec cfg sched (initState cfg)).tasks i = Phase.panicked :=
  fun i hi => terminal_phases (inv_reach cfg sched) hterm i hi

/-- C4 witness: in the completed demo run task 0 has finished. -/
theorem C4_no_task_outlives_run_witness :
    (exec demoConfig demoSched (initState demoConfig)).tasks 0 = Phase.done
      ∨
    (exec demoConfig demoSched (initState demoConfig)).tasks 0
      = Phase.panicked :=
  C4_no_task_outlives_run demoConfig demoSched ⟨rfl, by decide⟩ 0
    (by decide)

/-- C5: if opening/truncating the sink fails, the run aborts before any
task exists: for every configuration and schedule the call propagates the
executor-level failure and returns no state at all — no task launched, no
log entry written, no Result Collection. -/
theorem C5_sink_open_failure_fatal {T E : Type} (cfg : SwarmConfig T E)
    (sched : List Event) :
    concurrent_swarm cfg false sched
      = Except.error SwarmPanic.sinkOpenFailed := rfl

/-- C6: an Err outcome of the callable is not fatal: the run still returns
Ok, the failure is logged as a status "error" line whose payload is the
stringified error, the Err outcome is placed into the Result Collection
like any success, and all n outcomes (siblings included) are collected. -/
theorem C6_callable_error_is_normal_outcome {T E : Type}
    (cfg : SwarmConfig T E) (sched : List Event) (i : Nat) (er : E)
    (hi : i < cfg.n) (herr : cfg.outcomes i = Except.error er)
    (hw : ∀ j, j < cfg.n → cfg.writeOk j = true)
    (hterm : isTerminal cfg (exec cfg sched (initState cfg))) :
    concurrent_swarm cfg true sched
      = Except.ok (exec cfg sched (initState cfg)) ∧
    (⟨i + 1, "error", LogPayload.errorText (cfg.fmtE er)⟩ : LogEntry T)
      ∈ (exec cfg sched (initState cfg)).sink ∧
    (i, (Except.error er : Except E T))
      ∈ (exec cfg sched (initState cfg)).results ∧
    (exec cfg sched (initState cfg)).results.length = cfg.n := by
  have hInv := inv_reach cfg sched
  have hok := terminal_writeOk hInv hterm i hi (hw i hi)
  refine ⟨rfl, ?_, ?_, ?_⟩
  · have hm : logEntry cfg.fmtE i (cfg.outcomes i)
        ∈ sinkFor (exec cfg sched (initState cfg)) i := by
      rw [hok.1]
      exact List.mem_singleton.mpr rfl
    have h2 := List.mem_of_mem_filter hm
    rw [herr] at h2
    exact h2
  · have hm : (i, cfg.outcomes i)
        ∈ outFor (exec cfg sched (initState cfg)) i := by
      rw [hok.2]
      exact List.mem_singleton.mpr rfl
    have h2 := List.mem_of_mem_filter hm
    rw [List.mem_append, hterm.1] at h2
    rcases h2 with h2 | h2
    · cases h2
    · rw [herr] at h2
      exact h2
  · have hr := results_fst_perm hInv hterm
    rw [goodTasks_all cfg hw] at hr
    have := hr.length_eq
    simpa using this

/-- C6 witness: in the demo run task 1 fails operationally, its error line
and Err outcome are present, and both outcomes are collected. -/
theorem C6_callable_error_is_normal_outcome_witness :
    (⟨2, "error", LogPayload.errorText "unit error"⟩ : LogEntry Nat)
      ∈ (exec demoConfig demoSched (initState demoConfig)).sink ∧
    ((1 : Nat), (Except.error () : Except Unit Nat))
      ∈ (exec demoConfig demoSched (initState demoConfig)).results :=
  ⟨(C6_callable_error_is_normal_outcome demoConfig demoSched 1 ()
      (by decide) rfl (by decide) ⟨rfl, by decide⟩).2.1,
   (C6_callable_error_is_normal_outcome demoConfig demoSched 1 ()
      (by decide) rfl (by decide) ⟨rfl, by decide⟩).2.2.1⟩

/-- C7: in every reachable state of every interleaving, any outcome that
has been handed to the collection channel (still buffered or already
collected) has its log entry in the sink: "logged" happens-before
"returned to caller" for every individual outcome. -/
theorem C7_logged_happens_before_sent {T E : Type} (cfg : SwarmConfig T E)
    (sched : List Event) :
    ∀ p ∈ (exec cfg sched (initState cfg)).buffer ++
        (exec cfg sched (initState cfg)).results,
      logEntry cfg.fmtE p.1 (cfg.outcomes p.1)
        ∈ (exec cfg sched (initState cfg)).sink :=
  fun _ hp => (mem_out_eq (inv_reach cfg sched) hp).2.2

/-- C7 witness: in the partial demo run the outcome of task 0 sits in the
channel buffer and its log line is already in the sink. -/
theorem C7_logged_happens_before_sent_witness :
    logEntry demoConfig.fmtE 0 (demoConfig.outcomes 0)
      ∈ (exec demoConfig demoSchedPartial (initState demoConfig)).sink :=
  C7_logged_happens_before_sent demoConfig demoSchedPartial
    (0, Except.ok 10) (List.Mem.head _)

/-- C8: after a completed run of width n with all sink writes succeeding,
the multiset of task fields across the logged lines is exactly
{1, ..., n} — 1-based, no duplicates, no gaps, in whatever order — and
every line equals the entry built from the index and outcome of the task
that produced it. -/
theorem C8_log_task_fields_exact {T E : Type} (cfg : SwarmConfig T E)
    (sched : List Event)
    (hw : ∀ i, i < cfg.n → cfg.writeOk i = true)
    (hterm : isTerminal cfg (exec cfg sched (initState cfg))) :
    ((exec cfg sched (initState cfg)).sink.map LogEntry.task).Perm
      ((List.range cfg.n).map (fun i => i + 1)) ∧
    ∀ e ∈ (exec cfg sched (initState cfg)).sink,
      ∃ i, i < cfg.n ∧ e.task = i + 1 ∧
        e = logEntry cfg.fmtE i (cfg.outcomes i) := by
  have hInv := inv_reach cfg sched
  constructor
  · have hs := sink_tasks_perm hInv hterm
    rw [goodTasks_all cfg hw] at hs
    exact hs
  · exact fun e he => mem_sink_eq hInv he

/-- C8 witness: the demo run logs task fields 1 and 2 exactly. -/
theorem C8_log_task_fields_exact_witness :
    ((exec demoConfig demoSched (initState demoConfig)).sink.map
      LogEntry.task).Perm ((List.range 2).map (fun i => i + 1)) :=
  (C8_log_task_fields_exact demoConfig demoSched (by decide)
    ⟨rfl, by decide⟩).1

end Swarm

namespace OpenAIModel

/-- C9 counterexample: with OPENAI_API_KEY absent, the OpenAI callable
does not return an Err value: it panics through expect with the message
"API key not found in environment variables", so the executor observes a
task panic — another failure mode — not Err(E). -/
theorem C9_counterexample :
    call_openai_api none (fun _ => Except.ok "response") "gpt-4o-mini"
        "You are a helpful assistant." "Who won the world series in 2020?"
      = Except.error "API key not found in environment variables" ∧
    (call_openai_api none (fun _ => Except.ok "response") "gpt-4o-mini"
        "You are a helpful assistant."
        "Who won the world series in 2020?").isOk = false :=
  ⟨rfl, rfl⟩

/-- C9 amended: a missing OPENAI_API_KEY credential is not surfaced as an
Err outcome: for every http behaviour and prompt the callable panics with
the expect message before building the request, so the executor never sees
this configuration error as an Err(E) value returned by the callable. -/
theorem C9_amended_missing_key_panics
    (send : HttpRequest → Except ReqwestError String)
    (model system_prompt user_task : String) :
    call_openai_api none send model system_prompt user_task
      = Except.error "API key not found in environment variables" := rfl

end OpenAIModel

namespace FileUtils

/-- C10: create_multiple_files returns Ok for every oracle, starting
filesystem, folder and input list — per-file I/O failures are only logged
by the spawned tasks and never propagated through its Result — and the Ok
return does not imply any file was written: an oracle failing every
primitive still yields Ok with the filesystem unchanged and no file. -/
theorem C10_create_multiple_files_always_ok :
    (∀ (ora : FsOracle) (fs : FsState) (folder : String)
        (files : List (String × String)),
      (create_multiple_files ora fs folder files).isOk = true) ∧
    create_multiple_files ⟨fun _ => false, fun _ => false⟩ ⟨[], []⟩ "f"
        [("a.txt", "x")] = Except.ok ⟨[], []⟩ :=
  ⟨fun _ _ _ _ => rfl, rfl⟩

end FileUtils
